import Mathlib

/-!
Shallow embedding of the incremental Reddit tree crawler
(`reddit_crawler.py`, class `RedditLegalCrawler`): content hashing,
relevance filtering, the recursive comment-tree crawler, the rate
governor, the listing crawl loop, and the cross-pass discovery merger.

Modelling conventions:
* Wall-clock time is measured in tenths of a second (so the 2-second
  minimum inter-request spacing, the 0.5 s / 1.0 s adaptive delays and
  the whole-second backoff waits are all exact naturals); calendar
  dates are day numbers.
* `random.randint(0, 30)` jitter is passed in as an explicit `jitter`
  argument, constrained by hypotheses where it matters.
* MD5 is a fixed deterministic function of its input string, and
  `json.dumps(..., sort_keys=True)` is injective on the dictionaries
  built here (finitely many scalar fields).  The embedding therefore
  represents `_get_content_hash` by the key-sorted association list
  that is serialized and digested: two hashes are equal exactly when
  these lists are equal (change detection reads distinct serializations
  as distinct digests, which is the operating assumption of the code).
* Provider exceptions (PRAW lazy fetches) are modelled by an optional
  `raises` classification on submissions and comments, thrown when the
  node is first accessed; `time.sleep` merely advances the clock, and
  sleeps whose duration cannot influence any control-flow decision
  (the 0.1 s pause between sibling replies) are not tracked.
* Timestamps rendered into records (`datetime.now().isoformat()`) are
  modelled by a single `nowIso` string per run.
-/

namespace RedditCrawler

/-- PRAW `edited` attribute: `False`, or the unix time of the last edit. -/
inductive Edited where
  | notEdited
  | editedAt (t : Nat)
deriving DecidableEq, Repr

/-- JSON scalar values appearing in the extracted item dictionaries.
`arr` stands for the (always empty at hashing time) `replies` array and
`null` for Python `None`. -/
inductive JVal where
  | s (v : String)
  | i (v : Int)
  | b (v : Bool)
  | num (v : Rat)
  | null
  | arr
deriving DecidableEq, Repr

/-- JSON rendering of the `edited` field. -/
def jEdited : Edited → JVal
  | .notEdited => .b false
  | .editedAt t => .i t

/-- Byte-wise lexicographic order on char lists, as used by
`json.dumps(..., sort_keys=True)` on these ASCII keys. -/
def charListLe : List Char → List Char → Bool
  | [], _ => true
  | _ :: _, [] => false
  | a :: as, b :: bs =>
    if a.val < b.val then true
    else if b.val < a.val then false
    else charListLe as bs

def strLe (a b : String) : Bool := charListLe a.data b.data

def insertSorted (p : String × Option JVal) :
    List (String × Option JVal) → List (String × Option JVal)
  | [] => [p]
  | q :: qs => if strLe p.1 q.1 then p :: q :: qs else q :: insertSorted p qs

/-- Key-sorting performed by `json.dumps(..., sort_keys=True)`. -/
def sortByKey : List (String × Option JVal) → List (String × Option JVal)
  | [] => []
  | p :: ps => insertSorted p (sortByKey ps)

def dictContains (d : List (String × JVal)) (k : String) : Bool :=
  d.any (fun p => p.1 == k)

/-- Python `dict.get`: `none` when the key is absent. -/
def dictGet (d : List (String × JVal)) (k : String) : Option JVal :=
  (d.find? (fun p => p.1 == k)).map (fun p => p.2)

/-- `_get_content_hash`: selects the key fields (posts carry
`num_comments`, comments do not), serializes them key-sorted and
digests with MD5.  The embedding returns the key-sorted association
list that MD5 is applied to; see the header note. -/
def getContentHash (content : List (String × JVal)) : List (String × Option JVal) :=
  let key_fields := if dictContains content "num_comments"
    then ["id", "score", "edited", "num_comments"]
    else ["id", "score", "edited"]
  sortByKey (key_fields.map (fun k => (k, dictGet content k)))

/-! ### Configuration -/

/-- Class-level rate limit constants. -/
def MAX_REQUESTS_PER_MINUTE : Nat := 30

def MAX_REQUESTS_PER_DAY : Nat := 1000

def POSTS_PER_LISTING : Nat := 25

def COMMENTS_PER_POST : Nat := 20

def RATE_CHECK_INTERVAL : Nat := 5

def HIGH_VALUE_POST_THRESHOLD : Int := 50

def MIN_COLLECTED_POSTS : Nat := 5

/-- The comment-tree class constants (`MAX_COMMENT_DEPTH`,
`MAX_REPLIES_PER_COMMENT`, `MIN_COMMENT_SCORE`, `PRESERVE_CONTEXT`,
`ALWAYS_INCLUDE_AUTHOR`) together with the keyword list, gathered into
one configuration value; the defaults are the source values. -/
structure CrawlerConfig where
  keywords : List String :=
    ["Supio", "Harvey", "Casetext", "Lexis+", "Westlaw",
     "AI", "automation", "document review", "contract analysis"]
  maxCommentDepth : Nat := 4
  maxRepliesPerComment : Nat := 10
  minCommentScore : Int := -5
  preserveContext : Bool := true
  alwaysIncludeAuthor : Bool := true

/-- ASCII lower-casing of a string into its char list (`str.lower()`). -/
def lowerChars (s : String) : List Char := s.data.map Char.toLower

/-- Does `sub` occur as a contiguous substring (`in` on Python strings)? -/
def containsSub : List Char → List Char → Bool
  | [], sub => sub.isEmpty
  | c :: cs, sub => sub.isPrefixOf (c :: cs) || containsSub cs sub

/-- `_is_relevant`: case-insensitive keyword substring test. -/
def isRelevant (cfg : CrawlerConfig) (text : String) : Bool :=
  cfg.keywords.any (fun kw => containsSub (lowerChars text) (lowerChars kw))

/-! ### Items -/

/-- Error classification used by the `except` clauses of
`crawl_subreddit`: 401/429/"rate limit" messages, 403/404 messages,
other `ResponseException`/`RequestException`s, and other exceptions. -/
inductive CrawlErr where
  | rateLimited
  | accessDenied
  | transient
  | unexpected
deriving DecidableEq, Repr

/-- Scalar attributes of a fetched comment.  `raises` classifies a
provider error thrown when the comment is first accessed (PRAW
attributes are lazily fetched); `none` means the access succeeds. -/
structure CommentInfo where
  id : String
  submissionId : String
  parentId : String
  author : String
  body : String
  score : Int
  createdUtc : Nat
  edited : Edited
  isSubmitter : Bool
  permalink : String
  raises : Option CrawlErr := none
deriving DecidableEq, Repr

/-- A provider comment together with its reply tree. -/
inductive Comment where
  | mk (info : CommentInfo) (replies : List Comment)

def Comment.info : Comment → CommentInfo
  | .mk i _ => i

def Comment.replies : Comment → List Comment
  | .mk _ r => r

/-- Scalar fields of the dictionary built by `_extract_comment_data`. -/
structure CommentDataInfo where
  id : String
  submissionId : String
  parentId : String
  author : String
  body : String
  score : Int
  createdUtc : Nat
  edited : Edited
  isSubmitter : Bool
  permalink : String
  depth : Nat
  collectedAt : String
deriving DecidableEq, Repr

/-- The dictionary built by `_extract_comment_data`, with its (initially
empty) nested `replies` list. -/
inductive CommentData where
  | mk (info : CommentDataInfo) (replies : List CommentData)

def CommentData.info : CommentData → CommentDataInfo
  | .mk i _ => i

def CommentData.replies : CommentData → List CommentData
  | .mk _ r => r

def CommentData.withReplies : CommentData → List CommentData → CommentData
  | .mk i _, rs => .mk i rs

/-- `_extract_comment_data`: the comment dictionary; `replies` starts
empty and is filled by the tree crawler. -/
def extractCommentData (c : Comment) (depth : Nat) (nowIso : String) : CommentData :=
  .mk { id := c.info.id
        submissionId := c.info.submissionId
        parentId := c.info.parentId
        author := c.info.author
        body := c.info.body
        score := c.info.score
        createdUtc := c.info.createdUtc
        edited := c.info.edited
        isSubmitter := c.info.isSubmitter
        permalink := "https://reddit.com" ++ c.info.permalink
        depth := depth
        collectedAt := nowIso } []

/-- The comment dictionary as a JSON object, in source field order, as
it stands when `_get_content_hash` is applied (so `replies` is the
empty array). -/
def commentDataDict (d : CommentData) : List (String × JVal) :=
  [("id", .s d.info.id),
   ("submission_id", .s d.info.submissionId),
   ("parent_id", .s d.info.parentId),
   ("author", .s d.info.author),
   ("body", .s d.info.body),
   ("score", .i d.info.score),
   ("created_utc", .i (d.info.createdUtc : Int)),
   ("edited", jEdited d.info.edited),
   ("is_submitter", .b d.info.isSubmitter),
   ("permalink", .s d.info.permalink),
   ("depth", .i (d.info.depth : Int)),
   ("collected_at", .s d.info.collectedAt),
   ("replies", .arr)]

/-- A fetched submission; `comments` is its top-level comment forest
after `replace_more(limit=0)`, `raises` a provider error classification
thrown when the submission is processed. -/
structure Submission where
  id : String
  subreddit : String
  title : String
  selftext : String
  author : String
  createdUtc : Nat
  score : Int
  upvoteRatioVal : Rat
  numComments : Int
  permalink : String
  flair : Option String
  edited : Edited
  comments : List Comment
  raises : Option CrawlErr := none

/-- The dictionary built by `_extract_post_data`, plus the `comments`
list that `crawl_subreddit` attaches after hashing. -/
structure PostData where
  id : String
  subreddit : String
  title : String
  content : String
  author : String
  createdUtc : Nat
  score : Int
  upvoteRatioVal : Rat
  numComments : Int
  url : String
  flair : Option String
  edited : Edited
  collectedAt : String
  comments : List CommentData

/-- `_extract_post_data`. -/
def extractPostData (s : Submission) (nowIso : String) : PostData :=
  { id := s.id
    subreddit := s.subreddit
    title := s.title
    content := s.selftext
    author := s.author
    createdUtc := s.createdUtc
    score := s.score
    upvoteRatioVal := s.upvoteRatioVal
    numComments := s.numComments
    url := "https://reddit.com" ++ s.permalink
    flair := s.flair
    edited := s.edited
    collectedAt := nowIso
    comments := [] }

/-- The post dictionary as a JSON object at hashing time (the
`comments` key is only added after `_get_content_hash` has run). -/
def postDataDict (p : PostData) : List (String × JVal) :=
  [("id", .s p.id),
   ("subreddit", .s p.subreddit),
   ("title", .s p.title),
   ("content", .s p.content),
   ("author", .s p.author),
   ("created_utc", .i (p.createdUtc : Int)),
   ("score", .i p.score),
   ("upvote_ratio", .num p.upvoteRatioVal),
   ("num_comments", .i p.numComments),
   ("url", .s p.url),
   ("flair", match p.flair with | some f => .s f | none => .null),
   ("edited", jEdited p.edited),
   ("collected_at", .s p.collectedAt)]

/-! ### Crawl record -/

/-- One entry of `reddit_crawl_record.json`: content hash, depth
(comment entries only) and last-seen timestamp. -/
structure RecordEntry where
  hash : List (String × Option JVal)
  depth : Option Nat
  lastSeen : String
deriving DecidableEq, Repr

/-- A record partition (one subreddit of `record["posts"]` or
`record["comments"]`), as an insertion-ordered dictionary. -/
abbrev Records := List (String × RecordEntry)

def recFind? (records : Records) (k : String) : Option RecordEntry :=
  (records.find? (fun p => p.1 == k)).map (fun p => p.2)

/-- Python dict assignment: overwrite in place, or append. -/
def recInsert (records : Records) (k : String) (v : RecordEntry) : Records :=
  if records.any (fun p => p.1 == k) then
    records.map (fun p => if p.1 == k then (k, v) else p)
  else records ++ [(k, v)]

/-! ### The recursive comment-tree crawler -/

/-- The relevance gate of `_fetch_comment_tree` (the block that may
`return None` before the comment is extracted): skip when relevance
checking is on, the comment is not an author reply, and the keyword
test fails — where nested comments are only keyword-tested when
`PRESERVE_CONTEXT` is off. -/
def relevanceSkip (cfg : CrawlerConfig) (depth : Nat)
    (check_relevance is_author_reply : Bool) (body : String) : Bool :=
  check_relevance && !is_author_reply &&
    (if depth == 0 then !(isRelevant cfg body)
     else if !cfg.preserveContext then !(isRelevant cfg body)
     else false)

mutual

/-- `_fetch_comment_tree`: recursively fetch a comment and its replies.
Returns the kept subtree (`some`), a skip (`none`), or a thrown
provider error, together with the comment record dictionary (which in
the source is mutated in place, so it survives a thrown error). -/
def fetchCommentTree (cfg : CrawlerConfig) (nowIso : String) (incremental : Bool) :
    Comment → Records → Nat → Bool → Except CrawlErr (Option CommentData) × Records
  | .mk info replies, comment_records, depth, check_relevance =>
    -- Skip if we have reached maximum depth
    if depth > cfg.maxCommentDepth then (.ok none, comment_records)
    else
      -- lazy provider access of this comment's attributes may raise
      match info.raises with
      | some e => (.error e, comment_records)
      | none =>
        -- Skip low-score comments (more lenient below the top level)
        let min_score := if depth == 0 then cfg.minCommentScore else cfg.minCommentScore - 3
        if info.score < min_score then (.ok none, comment_records)
        else
          let is_author_reply := cfg.alwaysIncludeAuthor && info.isSubmitter
          if relevanceSkip cfg depth check_relevance is_author_reply info.body then
            (.ok none, comment_records)
          else
            let comment_data := extractCommentData (.mk info replies) depth nowIso
            let comment_hash := getContentHash (commentDataDict comment_data)
            -- unchanged in incremental mode: skip the comment and its replies
            let unchanged := incremental &&
              (match recFind? comment_records info.id with
               | some entry => decide (entry.hash = comment_hash)
               | none => false)
            if unchanged then (.ok none, comment_records)
            else
              let records1 := recInsert comment_records info.id
                ⟨comment_hash, some depth, nowIso⟩
              -- Fetch replies if not at maximum depth
              if depth < cfg.maxCommentDepth then
                match processReplies cfg nowIso incremental
                    cfg.maxRepliesPerComment replies records1 (depth + 1) with
                | (.error e, records2) => (.error e, records2)
                | (.ok childData, records2) =>
                  (.ok (some (comment_data.withReplies childData)), records2)
              else (.ok (some comment_data), records1)

/-- The reply loop of `_fetch_comment_tree`: iterate over
`replies[:MAX_REPLIES_PER_COMMENT]` (expressed as a countdown limit),
recursing with `check_relevance = False`; a thrown error aborts the
remaining siblings but keeps the records mutated so far. -/
def processReplies (cfg : CrawlerConfig) (nowIso : String) (incremental : Bool) :
    Nat → List Comment → Records → Nat → Except CrawlErr (List CommentData) × Records
  | _, [], records, _ => (.ok [], records)
  | 0, _ :: _, records, _ => (.ok [], records)
  | limit + 1, reply :: rest, records, depth =>
    -- Do not check relevance for nested replies, to preserve context
    match fetchCommentTree cfg nowIso incremental reply records depth false with
    | (.error e, records1) => (.error e, records1)
    | (.ok replyData, records1) =>
      match processReplies cfg nowIso incremental limit rest records1 depth with
      | (.error e, records2) => (.error e, records2)
      | (.ok restData, records2) =>
        match replyData with
        | some d => (.ok (d :: restData), records2)
        | none => (.ok restData, records2)

end

/-! ### Rate governor -/

/-- The persisted `reddit_rate_limit.json` contents; `lastResetDay` is
the calendar date (day number) of `last_reset`. -/
structure RateLimitData where
  dailyRequests : Nat
  lastResetDay : Nat
  rateLimitHits : Nat
deriving DecidableEq, Repr

/-- In-memory rate limiting state of a crawler process: the loaded
counters plus `request_count`, `last_request_time`, `backoff_until`,
and the snapshots written by `_save_rate_limit_data`. -/
structure RLState where
  data : RateLimitData
  requestCount : Nat
  lastRequestTime : Nat
  backoffUntil : Nat
  savedData : List RateLimitData
deriving DecidableEq, Repr

/-- `_load_rate_limit_data`: read the persisted state (`none` models
`FileNotFoundError`) and reset the daily counter if the current
calendar day is strictly newer than the recorded one.  Note the file
is not rewritten here; the reset state is only persisted by a later
save. -/
def loadRateLimitData (persisted : Option RateLimitData) (today : Nat) : RateLimitData :=
  match persisted with
  | some d =>
    if today > d.lastResetDay then
      { d with dailyRequests := 0, lastResetDay := today }
    else d
  | none => { dailyRequests := 0, lastResetDay := today, rateLimitHits := 0 }

/-- The rate limiting fields set up by `__init__` for a fresh process:
load the persisted data, zero the run counters, stamp
`last_request_time` with the current time. -/
def initRLState (persisted : Option RateLimitData) (today : Nat) (now : Nat) : RLState :=
  { data := loadRateLimitData persisted today
    requestCount := 0
    lastRequestTime := now
    backoffUntil := 0
    savedData := [] }

/-- `_check_rate_limit` (the governor's `Admit`): sleep out a pending
backoff and admit; otherwise deny at the daily cap; otherwise enforce
the minimum inter-request spacing, bump the counters and admit, saving
every 10th request.  Returns (admitted, new state, new clock). -/
def checkRateLimit (st : RLState) (now : Nat) : Bool × RLState × Nat :=
  -- Check if we are in a backoff period
  if now < st.backoffUntil then
    (true, st, st.backoffUntil)
  -- Check daily limit
  else if st.data.dailyRequests ≥ MAX_REQUESTS_PER_DAY then
    (false, st, now)
  else
    -- enforce ~2 seconds between requests (tenths of a second)
    let min_delay := 600 / MAX_REQUESTS_PER_MINUTE
    let now1 := if now - st.lastRequestTime < min_delay
      then st.lastRequestTime + min_delay else now
    let request_count := st.requestCount + 1
    let data1 := { st.data with dailyRequests := st.data.dailyRequests + 1 }
    let st1 := { st with lastRequestTime := now1
                         requestCount := request_count
                         data := data1 }
    -- Save every 10 requests
    let st2 := if request_count % 10 == 0
      then { st1 with savedData := st1.savedData ++ [data1] } else st1
    (true, st2, now1)

/-- The wait formula of `_handle_rate_limit_error`, in seconds:
`30 * min(2 ** rate_limit_hits, 16) + jitter` with
`jitter = random.randint(0, 30)`. -/
def backoffWaitSeconds (hits : Nat) (jitter : Nat) : Nat :=
  let backoff_base := 30
  let backoff_multiplier := min (2 ^ hits) 16
  backoff_base * backoff_multiplier + jitter

/-- `_handle_rate_limit_error`: bump `rate_limit_hits`, compute the
backoff, set `backoff_until`, persist, and sleep the wait out.
Returns (new state, clock after the sleep, wait in seconds). -/
def handleRateLimitError (st : RLState) (now : Nat) (jitter : Nat) :
    RLState × Nat × Nat :=
  let data1 := { st.data with rateLimitHits := st.data.rateLimitHits + 1 }
  let backoff_seconds := backoffWaitSeconds data1.rateLimitHits jitter
  let st1 := { st with data := data1
                       backoffUntil := now + 10 * backoff_seconds
                       savedData := st.savedData ++ [data1] }
  (st1, now + 10 * backoff_seconds, backoff_seconds)

/-! ### The listing crawl loop (`crawl_subreddit`) -/

/-- The mutable state of one `crawl_subreddit` call: the two record
partitions for this subreddit, the rate limiting state, the clock, the
posts collected so far, `record["last_crawl"]` for this subreddit, and
the snapshots written by `_save_record`. -/
structure CrawlSt where
  postRecords : Records
  commentRecords : Records
  rl : RLState
  now : Nat
  collected : List PostData
  lastCrawl : Option String
  savedRecords : List (Records × Records × Option String)

/-- The top-level comment loop of `crawl_subreddit`: run
`_fetch_comment_tree` at depth 0 (with relevance checking) on each of
the limited top-level comments, collecting kept trees; an error aborts
the loop but keeps the mutated records. -/
def processTopComments (cfg : CrawlerConfig) (nowIso : String) (incremental : Bool) :
    List Comment → Records → Except CrawlErr (List CommentData) × Records
  | [], records => (.ok [], records)
  | c :: cs, records =>
    match fetchCommentTree cfg nowIso incremental c records 0 true with
    | (.error e, records1) => (.error e, records1)
    | (.ok tree, records1) =>
      match processTopComments cfg nowIso incremental cs records1 with
      | (.error e, records2) => (.error e, records2)
      | (.ok rest, records2) =>
        match tree with
        | some d => (.ok (d :: rest), records2)
        | none => (.ok rest, records2)

/-- Outcome of the loop body of `crawl_subreddit` for one submission:
move to the next submission, `break` out of the listing (unchanged
post found in incremental mode), or a thrown provider error that the
listing-level `except` will handle.  Each outcome carries the state as
mutated so far. -/
inductive SubStep where
  | proceed (st : CrawlSt)
  | stop (st : CrawlSt)
  | failed (st : CrawlSt) (e : CrawlErr)

def SubStep.state : SubStep → CrawlSt
  | .proceed st => st
  | .stop st => st
  | .failed st _ => st

/-- The body of the submission loop of `crawl_subreddit` for one
submission: the age/score/relevance filters, the incremental early
stop on an unchanged post, comment fetching, record update and
collection with the adaptive delay. -/
def processSubmission (cfg : CrawlerConfig) (nowIso : String) (minScore : Int)
    (timeThreshold : Nat) (incremental : Bool) (s : Submission) (st1 : CrawlSt) : SubStep :=
  -- lazy provider access of this submission may raise
  match s.raises with
  | some e => .failed st1 e
  | none =>
    -- Skip old posts
    if s.createdUtc < timeThreshold then .proceed st1
    -- Skip low-score posts
    else if s.score < minScore then .proceed st1
    -- Check relevance on title and body together
    else if !(isRelevant cfg (s.title ++ " " ++ s.selftext)) then .proceed st1
    else
      let post_data := extractPostData s nowIso
      let post_hash := getContentHash (postDataDict post_data)
      -- unchanged in incremental mode: stop scanning this listing
      let unchanged := incremental &&
        (match recFind? st1.postRecords s.id with
         | some entry => decide (entry.hash = post_hash)
         | none => false)
      if unchanged then .stop st1
      else
        match processTopComments cfg nowIso incremental
            (s.comments.take COMMENTS_PER_POST) st1.commentRecords with
        | (.error e, crecs) => .failed { st1 with commentRecords := crecs } e
        | (.ok comment_trees, crecs) =>
          let post_data := { post_data with comments := comment_trees }
          let precs := recInsert st1.postRecords s.id ⟨post_hash, none, nowIso⟩
          let collected := st1.collected ++ [post_data]
          -- adaptive delay (tenths of a second)
          let delay := if s.score > HIGH_VALUE_POST_THRESHOLD
              || collected.length < MIN_COLLECTED_POSTS then 10 else 5
          .proceed { st1 with postRecords := precs
                              commentRecords := crecs
                              collected := collected
                              now := st1.now + delay }

/-- The submission loop of `crawl_subreddit` for one listing type:
the periodic rate limit check every `RATE_CHECK_INTERVAL` iterated
posts (not on the first), then the per-submission body.  Returns the
state and a thrown provider error if one escaped (handled by the
caller's `except`). -/
def processSubmissions (cfg : CrawlerConfig) (nowIso : String) (minScore : Int)
    (timeThreshold : Nat) (incremental : Bool) :
    List Submission → Nat → CrawlSt → CrawlSt × Option CrawlErr
  | [], _, st => (st, none)
  | s :: rest, post_count, st =>
    -- Periodic rate limit check during iteration (not on the first post)
    let checked :=
      if post_count > 0 && post_count % RATE_CHECK_INTERVAL == 0 then
        let (ok, rl1, now1) := checkRateLimit st.rl st.now
        (({ st with rl := rl1, now := now1 } : CrawlSt), ok)
      else (st, true)
    match checked with
    | (st1, false) => (st1, none)  -- rate limit hit, stop this listing
    | (st1, true) =>
      match processSubmission cfg nowIso minScore timeThreshold incremental s st1 with
      | .proceed st2 =>
        processSubmissions cfg nowIso minScore timeThreshold incremental rest (post_count + 1) st2
      | .stop st2 => (st2, none)
      | .failed st2 e => (st2, some e)

/-- The listing-type loop of `crawl_subreddit` with its `except`
clauses: an initial rate check per listing (denial stops everything),
then the submission loop; a rate-limit error backs off and stops all
remaining listing types, an access error stops them too, and any other
error only abandons the current listing type. -/
def crawlListings (cfg : CrawlerConfig) (nowIso : String) (minScore : Int)
    (timeThreshold : Nat) (incremental : Bool) (jitter : Nat) :
    List (List Submission) → CrawlSt → CrawlSt
  | [], st => st
  | listing :: restListings, st =>
    let (ok, rl1, now1) := checkRateLimit st.rl st.now
    let st1 : CrawlSt := { st with rl := rl1, now := now1 }
    if !ok then st1  -- stop due to rate limits
    else
      match processSubmissions cfg nowIso minScore timeThreshold incremental listing 0 st1 with
      | (st2, none) =>
        crawlListings cfg nowIso minScore timeThreshold incremental jitter restListings st2
      | (st2, some .rateLimited) =>
        let (rl2, now2, _) := handleRateLimitError st2.rl st2.now jitter
        { st2 with rl := rl2, now := now2 }  -- skip remaining listing types
      | (st2, some .accessDenied) => st2     -- skip remaining listing types
      | (st2, some .transient) =>
        crawlListings cfg nowIso minScore timeThreshold incremental jitter restListings st2
      | (st2, some .unexpected) =>
        crawlListings cfg nowIso minScore timeThreshold incremental jitter restListings st2

/-- `crawl_subreddit` on a given sequence of listings (hot, new,
rising, top): run the listing loop, stamp `last_crawl`, and persist
the record once with `_save_record`. -/
def crawlSubreddit (cfg : CrawlerConfig) (nowIso : String) (minScore : Int)
    (timeThreshold : Nat) (incremental : Bool) (jitter : Nat)
    (listings : List (List Submission)) (st0 : CrawlSt) : CrawlSt :=
  let st := crawlListings cfg nowIso minScore timeThreshold incremental jitter listings st0
  let st1 : CrawlSt := { st with lastCrawl := some nowIso }
  { st1 with savedRecords :=
      st1.savedRecords ++ [(st1.postRecords, st1.commentRecords, st1.lastCrawl)] }

/-! ### The discovery merger (`run_full_crawl` deduplication) -/

/-- The inner comment-merging loop of `run_full_crawl`: walk the new
comments carrying the set of already-present ids, appending those whose
id is unseen. -/
def mergeNewComments :
    List CommentData → List String → List CommentData → List CommentData × List String
  | existing, ids, [] => (existing, ids)
  | existing, ids, c :: cs =>
    if ids.contains c.info.id then mergeNewComments existing ids cs
    else mergeNewComments (existing ++ [c]) (ids ++ [c.info.id]) cs

/-- Merge the comments of a duplicate post into the first-seen copy:
union by top-level comment id, first-seen side preserved. -/
def mergeCommentsInto (existing newComments : List CommentData) : List CommentData :=
  (mergeNewComments existing (existing.map (fun c => c.info.id)) newComments).1

/-- Update the (unique) entry of an insertion-ordered post dictionary. -/
def updateById (id : String) (f : PostData → PostData) : List PostData → List PostData
  | [] => []
  | q :: qs => if q.id == id then f q :: qs else q :: updateById id f qs

/-- One step of the `posts_by_id` deduplication loop: merge comments
into an existing entry (first-seen post fields kept), or append. -/
def mergeStep (acc : List PostData) (post : PostData) : List PostData :=
  if acc.any (fun q => q.id == post.id) then
    updateById post.id
      (fun q => { q with comments := mergeCommentsInto q.comments post.comments }) acc
  else acc ++ [post]

/-- The duplicate-removal pass of `run_full_crawl` over the
concatenated discovery results: build `posts_by_id` in insertion order
and take its values. -/
def mergePosts (posts : List PostData) : List PostData := posts.foldl mergeStep []

/-- `Merge(resultsByPass)`: the passes are concatenated into
`all_data["posts"]` and then deduplicated. -/
def mergePasses (passes : List (List PostData)) : List PostData :=
  mergePosts passes.flatten

/-! ### Concrete instances used by witnesses and counterexamples -/

/-- A comment attribute block with the fields that the claims vary;
the remaining fields are fixed innocuous values. -/
def sampleCommentInfo (id author body : String) (score : Int) (isSubmitter : Bool)
    (raises : Option CrawlErr := none) : CommentInfo :=
  { id := id, submissionId := "p1", parentId := "t3_p1", author := author, body := body,
    score := score, createdUtc := 100, edited := .notEdited, isSubmitter := isSubmitter,
    permalink := "/r/LawFirm/" ++ id, raises := raises }

/-- A submission with given comments; relevant to keyword "widget". -/
def sampleSubmission (id : String) (comments : List Comment)
    (raises : Option CrawlErr := none) : Submission :=
  { id := id, subreddit := "LawFirm", title := "widget question", selftext := "",
    author := "alice", createdUtc := 100, score := 20, upvoteRatioVal := 9/10,
    numComments := 2, permalink := "/r/LawFirm/" ++ id, flair := none,
    edited := .notEdited, comments := comments, raises := raises }

/-- Fresh crawl state: empty records, fresh rate limit state, clock at
`now`, nothing collected and nothing saved yet. -/
def freshCrawlSt (now : Nat) : CrawlSt :=
  { postRecords := [], commentRecords := [], rl := initRLState none 0 now,
    now := now, collected := [], lastCrawl := none, savedRecords := [] }

/-- C1 counterexample data: two comments whose mutable-field subsets
(score, edit state) agree but whose ids differ. -/
def c1cexA : CommentData := extractCommentData (.mk (sampleCommentInfo "aaa" "bob" "x" 3 false) []) 0 "T"

def c1cexB : CommentData := extractCommentData (.mk (sampleCommentInfo "bbb" "bob" "x" 3 false) []) 0 "T"

/-- C1 witness data: a post whose single-field variants the witness
hashes. -/
def c1cexPost : PostData :=
  { id := "pw", subreddit := "LawFirm", title := "widget question", content := "",
    author := "alice", createdUtc := 100, score := 20, upvoteRatioVal := 9/10,
    numComments := 2, url := "https://reddit.com/r/LawFirm/pw", flair := none,
    edited := .notEdited, collectedAt := "T", comments := [] }

/-- C3 scenario: `preserveContext` off, and a relevant top-level comment
with an irrelevant nested reply. -/
def c3cfg : CrawlerConfig := { keywords := ["widget"], preserveContext := false }

def c3child : Comment := .mk (sampleCommentInfo "c2" "carol" "nothing relevant here" 1 false) []

def c3parent : Comment := .mk (sampleCommentInfo "c1" "bob" "love the widget" 1 false) [c3child]

/-- C5 counterexample state: three throttle hits already recorded, so
the next two signals both saturate the multiplier cap. -/
def c5state : RLState :=
  { data := { dailyRequests := 10, lastResetDay := 5, rateLimitHits := 3 },
    requestCount := 0, lastRequestTime := 0, backoffUntil := 0, savedData := [] }

/-- C6 counterexample state: a crawler process whose in-memory state
(and last persisted snapshot) says the daily window started on day 0
with the daily cap consumed; the current moment is on day 1. -/
def c6liveState : RLState :=
  { data := { dailyRequests := 1000, lastResetDay := 0, rateLimitHits := 0 },
    requestCount := 50, lastRequestTime := 999000, backoffUntil := 0,
    savedData := [{ dailyRequests := 1000, lastResetDay := 0, rateLimitHits := 0 }] }

/-- C7 counterexample: a pass that contains the same root id twice. -/
def c7dupPost : PostData :=
  { id := "p1", subreddit := "LawFirm", title := "widget question", content := "",
    author := "alice", createdUtc := 100, score := 20, upvoteRatioVal := 9/10,
    numComments := 2, url := "https://reddit.com/r/LawFirm/p1", flair := none,
    edited := .notEdited, collectedAt := "T", comments := [] }

/-- C8 scenario: one listing containing one relevant post whose first
top-level comment raises a transient provider error and whose second
is a relevant, healthy comment. -/
def c8cfg : CrawlerConfig := { keywords := ["widget"] }

def c8errComment : Comment :=
  .mk (sampleCommentInfo "bad" "bob" "love the widget" 5 false (some .transient)) []

def c8okComment : Comment :=
  .mk (sampleCommentInfo "good" "carol" "widget fan" 5 false) []

def c8errSub : Submission := sampleSubmission "p1" [c8errComment, c8okComment]

/-- The same submission with the provider error removed. -/
def c8okCommentFixed : Comment :=
  .mk (sampleCommentInfo "bad" "bob" "love the widget" 5 false) []

def c8okSub : Submission := sampleSubmission "p1" [c8okCommentFixed, c8okComment]

/-- C9 scenario: one listing with two relevant posts (no comments). -/
def c9cfg : CrawlerConfig := { keywords := ["widget"] }

def c9s1 : Submission := sampleSubmission "p1" []

def c9s2 : Submission := sampleSubmission "p2" []

/-- C2 witness data: a comment that is already recorded with exactly
the fingerprint its re-fetch produces. -/
def c2comment : Comment := .mk (sampleCommentInfo "cw" "bob" "hello" 1 false) []

def c2records : Records :=
  [("cw", ⟨getContentHash (commentDataDict (extractCommentData c2comment 0 "T")),
     some 0, "T"⟩)]

/-- C4 witness data: an author reply with no keywords, an irrelevant
depth-0 comment, and a depth-1 parent with an irrelevant depth-2 child
(relative to the default keyword list). -/
def c4author : Comment := .mk (sampleCommentInfo "ca" "alice" "no keywords here" 1 true) []

def c4irrelevant : Comment := .mk (sampleCommentInfo "ci" "bob" "hello there" 1 false) []

def c4child : Comment := .mk (sampleCommentInfo "cc" "carol" "hello there" 1 false) []

def c4parent : Comment := .mk (sampleCommentInfo "cp" "bob" "parent text" 1 false) [c4child]

end RedditCrawler

/-! ## Theorems -/

namespace RedditCrawler

/-! ### Evaluation of the content hash on the two item dictionaries -/

/-- On a comment dictionary (no `num_comments` key) the hash input is
the key-sorted (id, score, edited) selection. -/
theorem getContentHash_commentDict (d : CommentData) :
    getContentHash (commentDataDict d) =
      [("edited", some (jEdited d.info.edited)),
       ("id", some (.s d.info.id)),
       ("score", some (.i d.info.score))] := rfl

/-- On a post dictionary (with `num_comments`) the hash input is the
key-sorted (id, score, edited, num_comments) selection. -/
theorem getContentHash_postDict (p : PostData) :
    getContentHash (postDataDict p) =
      [("edited", some (jEdited p.edited)),
       ("id", some (.s p.id)),
       ("num_comments", some (.i p.numComments)),
       ("score", some (.i p.score))] := rfl

theorem jEdited_injective {a b : Edited} (h : jEdited a = jEdited b) : a = b := by
  cases a <;> cases b <;> simp_all [jEdited]

/-! ### C1 -/

/-- C1 counterexample: the claim says equal mutable-field subsets
(score, edit state) force equal fingerprints, but `_get_content_hash`
also feeds `id` into the digest, so two comments that agree on every
mutable field and differ only in id get different fingerprints
(distinct serialized inputs, hence distinct digests). -/
theorem c1_fingerprint_counterexample :
    c1cexA.info.score = c1cexB.info.score ∧
    c1cexA.info.edited = c1cexB.info.edited ∧
    getContentHash (commentDataDict c1cexA) ≠ getContentHash (commentDataDict c1cexB) := by
  refine ⟨rfl, rfl, ?_⟩
  decide

/-- C1 amended: fingerprints are determined by id together with the
mutable-field subset — for items of the same kind with equal id, equal
score, equal edit state (and for posts equal reply count), the
fingerprints are equal regardless of every other field; and a change
to the score, the edit state, or (for posts) the reply count changes
the fingerprint. -/
theorem c1_fingerprint_amended :
    (∀ d1 d2 : CommentData, d1.info.id = d2.info.id → d1.info.score = d2.info.score →
      d1.info.edited = d2.info.edited →
      getContentHash (commentDataDict d1) = getContentHash (commentDataDict d2)) ∧
    (∀ p1 p2 : PostData, p1.id = p2.id → p1.score = p2.score → p1.edited = p2.edited →
      p1.numComments = p2.numComments →
      getContentHash (postDataDict p1) = getContentHash (postDataDict p2)) ∧
    (∀ d1 d2 : CommentData, d1.info.score ≠ d2.info.score →
      getContentHash (commentDataDict d1) ≠ getContentHash (commentDataDict d2)) ∧
    (∀ d1 d2 : CommentData, d1.info.edited ≠ d2.info.edited →
      getContentHash (commentDataDict d1) ≠ getContentHash (commentDataDict d2)) ∧
    (∀ p1 p2 : PostData, p1.numComments ≠ p2.numComments →
      getContentHash (postDataDict p1) ≠ getContentHash (postDataDict p2)) ∧
    (∀ p1 p2 : PostData, p1.score ≠ p2.score →
      getContentHash (postDataDict p1) ≠ getContentHash (postDataDict p2)) ∧
    (∀ p1 p2 : PostData, p1.edited ≠ p2.edited →
      getContentHash (postDataDict p1) ≠ getContentHash (postDataDict p2)) := by
  refine ⟨?_, ?_, ?_, ?_, ?_, ?_, ?_⟩
  · intro d1 d2 h1 h2 h3
    simp [getContentHash_commentDict, h1, h2, h3]
  · intro p1 p2 h1 h2 h3 h4
    simp [getContentHash_postDict, h1, h2, h3, h4]
  · intro d1 d2 h hc
    simp only [getContentHash_commentDict] at hc
    simp_all
  · intro d1 d2 h hc
    simp only [getContentHash_commentDict] at hc
    exact h (jEdited_injective (by simp_all))
  · intro p1 p2 h hc
    simp only [getContentHash_postDict] at hc
    simp_all
  · intro p1 p2 h hc
    simp only [getContentHash_postDict] at hc
    simp_all
  · intro p1 p2 h hc
    simp only [getContentHash_postDict] at hc
    exact h (jEdited_injective (by simp_all))

/-- C1 witness: concrete instances of the amended conjuncts — equal
id and mutable subset with every other field different (comments and
posts), and single-field changes (comment score; post reply count,
score and edit state). -/
theorem c1_fingerprint_witness :
    getContentHash (commentDataDict c1cexA) =
      getContentHash (commentDataDict (extractCommentData
        (.mk (sampleCommentInfo "aaa" "zoe" "other body" 3 false) []) 0 "U")) ∧
    getContentHash (commentDataDict c1cexA) ≠
      getContentHash (commentDataDict (extractCommentData
        (.mk (sampleCommentInfo "aaa" "bob" "x" 4 false) []) 0 "T")) ∧
    getContentHash (postDataDict c1cexPost) ≠
      getContentHash (postDataDict { c1cexPost with numComments := 3 }) ∧
    getContentHash (postDataDict c1cexPost) ≠
      getContentHash (postDataDict { c1cexPost with score := 21 }) ∧
    getContentHash (postDataDict c1cexPost) ≠
      getContentHash (postDataDict { c1cexPost with edited := .editedAt 123 }) := by
  refine ⟨?_, ?_, ?_, ?_, ?_⟩
  · exact c1_fingerprint_amended.1 _ _ rfl rfl rfl
  · exact c1_fingerprint_amended.2.2.1 _ _ (by decide)
  · exact c1_fingerprint_amended.2.2.2.2.1 _ _ (by decide)
  · exact c1_fingerprint_amended.2.2.2.2.2.1 _ _ (by decide)
  · exact c1_fingerprint_amended.2.2.2.2.2.2 _ _ (by decide)

/-! ### C5 -/

/-- C5 counterexample: from three recorded throttle hits, two further
consecutive throttle signals (jitter 30, then jitter 0 — both within
`randint(0, 30)`) produce waits of 510 s and then 480 s: the wait
durations decrease, refuting "consecutive throttle signals produce
strictly non-decreasing wait durations". -/
theorem c5_backoff_counterexample :
    (handleRateLimitError c5state 1000 30).2.2 = 510 ∧
    (handleRateLimitError (handleRateLimitError c5state 1000 30).1 6100 0).2.2 = 480 ∧
    ¬ (510 : Nat) ≤ 480 := by
  refine ⟨rfl, rfl, by decide⟩

/-- C5 amended: each throttle signal waits
`30 * min(2 ** hits, 16) + jitter` seconds; the jitter-free part of
the wait is non-decreasing from one signal to the next, the full wait
never exceeds 510 s = 30 * 16 + 30 (within the spec's 8-10 minute
clamp), and the full wait is non-decreasing as long as the doubling
multiplier has not yet reached its cap of 16; once the cap is reached
the jitter may make a later wait up to 30 s shorter. -/
theorem c5_backoff_amended :
    (∀ st now jitter, (handleRateLimitError st now jitter).2.2 =
      backoffWaitSeconds (st.data.rateLimitHits + 1) jitter) ∧
    (∀ hits, backoffWaitSeconds hits 0 ≤ backoffWaitSeconds (hits + 1) 0) ∧
    (∀ hits jitter, jitter ≤ 30 → backoffWaitSeconds hits jitter ≤ 510) ∧
    (∀ hits jitter jitter', jitter ≤ 30 → 2 ^ (hits + 1) ≤ 16 →
      backoffWaitSeconds hits jitter ≤ backoffWaitSeconds (hits + 1) jitter') := by
  refine ⟨fun _ _ _ => rfl, ?_, ?_, ?_⟩
  · intro hits
    have h1 : 2 ^ hits ≤ 2 ^ (hits + 1) := Nat.pow_le_pow_right (by omega) (by omega)
    simp only [backoffWaitSeconds]
    have : min (2 ^ hits) 16 ≤ min (2 ^ (hits + 1)) 16 := by omega
    omega
  · intro hits jitter hj
    simp only [backoffWaitSeconds]
    have : min (2 ^ hits) 16 ≤ 16 := Nat.min_le_right _ _
    omega
  · intro hits jitter jitter' hj hcap
    have h1 : 2 ^ (hits + 1) = 2 * 2 ^ hits := by ring
    have h2 : 1 ≤ 2 ^ hits := Nat.one_le_two_pow
    simp only [backoffWaitSeconds]
    have hm1 : min (2 ^ hits) 16 = 2 ^ hits := Nat.min_eq_left (by omega)
    have hm2 : min (2 ^ (hits + 1)) 16 = 2 ^ (hits + 1) := Nat.min_eq_left hcap
    rw [hm1, hm2]
    omega

/-- C5 witness: concrete instances of the amended conjuncts. -/
theorem c5_backoff_witness :
    (handleRateLimitError c5state 1000 30).2.2 = backoffWaitSeconds 4 30 ∧
    backoffWaitSeconds 2 0 ≤ backoffWaitSeconds 3 0 ∧
    backoffWaitSeconds 9 30 ≤ 510 ∧
    backoffWaitSeconds 2 30 ≤ backoffWaitSeconds 3 7 :=
  ⟨c5_backoff_amended.1 c5state 1000 30,
   c5_backoff_amended.2.1 2,
   c5_backoff_amended.2.2.1 9 30 (by decide),
   c5_backoff_amended.2.2.2 2 30 7 (by decide) (by decide)⟩

/-! ### C6 -/

/-- C6 counterexample: `Admit` (`_check_rate_limit`) performs no date
check at all.  A crawler whose in-memory (and last persisted) state
says the daily window started on day 0 with 1000 requests consumed is
now called on day 1: the claim predicts the count is reset to 0, then
incremented, and the cap check passes; the code instead denies the
request and leaves the stale count at 1000 — the reset only ever
happens in `_load_rate_limit_data` at process start. -/
theorem c6_daily_reset_counterexample :
    c6liveState.data.lastResetDay = 0 ∧
    0 < c6liveState.data.dailyRequests ∧
    checkRateLimit c6liveState 1000000 = (false, c6liveState, 1000000) := by
  refine ⟨rfl, by decide, rfl⟩

/-- C6 amended: the daily reset is performed by the state loader at
process start, not inside `Admit`.  When the persisted window start is
an earlier calendar day, loading resets the count to 0 (advancing the
window and preserving the throttle-hit counter), and the fresh
process's first `Admit` then increments the count to 1 and passes the
cap check; loading a state whose window already starts today is the
identity, so for sequential load-then-save processes the reset happens
at most once per calendar day.  An `Admit` inside a process that
stays alive across midnight never resets. -/
theorem c6_daily_reset_amended (d : RateLimitData) (today now : Nat)
    (hday : d.lastResetDay < today) :
    (loadRateLimitData (some d) today).dailyRequests = 0 ∧
    (loadRateLimitData (some d) today).lastResetDay = today ∧
    (loadRateLimitData (some d) today).rateLimitHits = d.rateLimitHits ∧
    (checkRateLimit (initRLState (some d) today now) now).1 = true ∧
    (checkRateLimit (initRLState (some d) today now) now).2.1.data.dailyRequests = 1 ∧
    (∀ d' : RateLimitData, d'.lastResetDay = today →
      loadRateLimitData (some d') today = d') := by
  have hload : loadRateLimitData (some d) today =
      { d with dailyRequests := 0, lastResetDay := today } := by
    simp [loadRateLimitData, hday]
  refine ⟨by simp [hload], by simp [hload], by simp [hload], ?_, ?_, ?_⟩
  · simp [checkRateLimit, initRLState, hload, MAX_REQUESTS_PER_DAY]
  · simp [checkRateLimit, initRLState, hload, MAX_REQUESTS_PER_DAY]
  · intro d' h
    simp [loadRateLimitData, h]

/-- C6 witness: persisted day-0 state with 999 requests, loaded and
admitted on day 1. -/
theorem c6_daily_reset_witness :
    (0 : Nat) < 1 ∧
    (loadRateLimitData (some { dailyRequests := 999, lastResetDay := 0, rateLimitHits := 2 }) 1).dailyRequests = 0 ∧
    (checkRateLimit (initRLState (some { dailyRequests := 999, lastResetDay := 0, rateLimitHits := 2 }) 1 5000) 5000).1 = true ∧
    (checkRateLimit (initRLState (some { dailyRequests := 999, lastResetDay := 0, rateLimitHits := 2 }) 1 5000) 5000).2.1.data.dailyRequests = 1 := by
  have h := c6_daily_reset_amended
    { dailyRequests := 999, lastResetDay := 0, rateLimitHits := 2 } 1 5000 (by decide)
  exact ⟨by decide, h.1, h.2.2.2.1, h.2.2.2.2.1⟩

/-! ### C10 -/

/-- C10: while a backoff deadline lies in the future, `Admit`
(`_check_rate_limit`) sleeps exactly until the deadline and then
returns admitted with the state untouched: the daily request counter,
the in-run request count, the last-request timestamp, the persisted
snapshots and the deadline itself are all unchanged, so a request
admitted through the backoff path is never counted against the daily
budget (the cap is not even consulted) and is not subjected to the
minimum inter-call spacing. -/
theorem c10_backoff_frame (st : RLState) (now : Nat) (h : now < st.backoffUntil) :
    checkRateLimit st now = (true, st, st.backoffUntil) := by
  simp [checkRateLimit, h]

/-- C10 witness: a state at the daily cap with a recent last request is
still admitted through the backoff path, untouched. -/
theorem c10_backoff_frame_witness :
    (50 : Nat) < 1000 ∧
    checkRateLimit
      { data := { dailyRequests := 1000, lastResetDay := 3, rateLimitHits := 2 },
        requestCount := 7, lastRequestTime := 49, backoffUntil := 1000, savedData := [] } 50 =
      (true,
       { data := { dailyRequests := 1000, lastResetDay := 3, rateLimitHits := 2 },
         requestCount := 7, lastRequestTime := 49, backoffUntil := 1000, savedData := [] },
       1000) :=
  ⟨by decide, c10_backoff_frame _ 50 (by decide)⟩

/-! ### C7 -/

theorem mergeNewComments_all_present (ex : List CommentData) (ids : List String) :
    ∀ newC : List CommentData, (∀ c ∈ newC, ids.contains c.info.id = true) →
      mergeNewComments ex ids newC = (ex, ids) := by
  intro newC
  induction newC with
  | nil => intro _; rfl
  | cons c cs ih =>
    intro h
    have hc := h c (List.mem_cons_self c cs)
    simp only [mergeNewComments, hc, if_true]
    exact ih (fun d hd => h d (List.mem_cons_of_mem c hd))

theorem mergeCommentsInto_self (l : List CommentData) : mergeCommentsInto l l = l := by
  have h : ∀ c ∈ l, ((l.map fun c => c.info.id).contains c.info.id) = true := by
    intro c hc
    exact List.elem_eq_true_of_mem (List.mem_map_of_mem _ hc)
  simp [mergeCommentsInto, mergeNewComments_all_present _ _ l h]

theorem updateById_eq_self (f : PostData → PostData) :
    ∀ (A : List PostData) (p : PostData), (A.map PostData.id).Nodup → p ∈ A → f p = p →
      updateById p.id f A = A := by
  intro A
  induction A with
  | nil => intro p _ hp _; cases hp
  | cons q qs ih =>
    intro p hnd hp hfp
    rw [List.map_cons, List.nodup_cons] at hnd
    simp only [updateById]
    by_cases hq : (q.id == p.id) = true
    · rw [if_pos hq]
      rcases List.mem_cons.mp hp with rfl | hmem
      · rw [hfp]
      · exact absurd (beq_iff_eq.mp hq ▸ List.mem_map_of_mem PostData.id hmem) hnd.1
    · rw [if_neg hq]
      have hpq : p ∈ qs := by
        rcases List.mem_cons.mp hp with rfl | hmem
        · simp at hq
        · exact hmem
      rw [ih p hnd.2 hpq hfp]

theorem foldl_mergeStep_disjoint :
    ∀ (L acc : List PostData), (L.map PostData.id).Nodup →
      (∀ p ∈ L, ∀ q ∈ acc, ¬ q.id = p.id) →
      L.foldl mergeStep acc = acc ++ L := by
  intro L
  induction L with
  | nil => intro acc _ _; simp
  | cons p L' ih =>
    intro acc hnd hdisj
    rw [List.map_cons, List.nodup_cons] at hnd
    have hany : (acc.any fun q => q.id == p.id) = false := by
      rw [List.any_eq_false]
      intro q hq
      simpa using hdisj p (List.mem_cons_self p L') q hq
    have hstep : mergeStep acc p = acc ++ [p] := by
      simp [mergeStep, hany]
    rw [List.foldl_cons, hstep,
      ih (acc ++ [p]) hnd.2 ?_, List.append_assoc]
    · rfl
    · intro r hr q hq
      rcases List.mem_append.mp hq with hq | hq
      · exact hdisj r (List.mem_cons_of_mem p hr) q hq
      · have : q = p := by simpa using hq
        subst this
        intro hqr
        exact hnd.1 (hqr ▸ List.mem_map_of_mem PostData.id hr)

theorem foldl_mergeStep_absorb :
    ∀ (S A : List PostData), (A.map PostData.id).Nodup → (∀ p ∈ S, p ∈ A) →
      S.foldl mergeStep A = A := by
  intro S
  induction S with
  | nil => intro A _ _; rfl
  | cons p S' ih =>
    intro A hnd hsub
    have hpA : p ∈ A := hsub p (List.mem_cons_self p S')
    have hany : (A.any fun q => q.id == p.id) = true :=
      List.any_eq_true.mpr ⟨p, hpA, by simp⟩
    have hstep : mergeStep A p = A := by
      simp only [mergeStep, hany, if_true]
      exact updateById_eq_self _ A p hnd hpA (by
        show { p with comments := mergeCommentsInto p.comments p.comments } = p
        rw [mergeCommentsInto_self])
    rw [List.foldl_cons, hstep]
    exact ih A hnd (fun r hr => hsub r (List.mem_cons_of_mem p hr))

/-- C7 counterexample: `Merge([passA])` is not `passA` for every pass.
A pass can contain the same root id twice (e.g. a non-incremental
browse pass finds the same post in two listing types), and the merge
then collapses the duplicates: with `passA = [p, p]`,
`Merge([passA]) = [p] ≠ passA`. -/
theorem c7_merge_counterexample :
    mergePasses [[c7dupPost, c7dupPost]] = [c7dupPost] ∧
    [c7dupPost] ≠ [c7dupPost, c7dupPost] := by
  refine ⟨rfl, fun hcontra => ?_⟩
  simpa using congrArg List.length hcontra

/-- C7 amended: `Merge([]) = []`; provided the root ids inside a pass
are pairwise distinct (which incremental passes produce, but
duplicate-id passes violate), `Merge([passA]) = passA` and
`Merge([passA, passA]) = passA` with no duplicates introduced; and for
two posts with the same root id the merge keeps the first-seen post's
own fields, unioning the comment lists by top-level comment id (exact
duplicate ids discarded, new ids appended with their subtrees), while
distinct root ids are kept in insertion order. -/
theorem c7_merge_amended :
    mergePasses [] = [] ∧
    (∀ A : List PostData, (A.map PostData.id).Nodup → mergePasses [A] = A) ∧
    (∀ A : List PostData, (A.map PostData.id).Nodup → mergePasses [A, A] = A) ∧
    (∀ p q : PostData, p.id = q.id →
      mergePosts [p, q] = [{ p with comments := mergeCommentsInto p.comments q.comments }]) ∧
    (∀ p q : PostData, ¬ p.id = q.id → mergePosts [p, q] = [p, q]) := by
  refine ⟨rfl, ?_, ?_, ?_, ?_⟩
  · intro A hnd
    have h1 : mergePasses [A] = A.foldl mergeStep [] := by
      simp [mergePasses, mergePosts]
    rw [h1, foldl_mergeStep_disjoint A [] hnd (by simp)]
    rfl
  · intro A hnd
    have h1 : mergePasses [A, A] = (A ++ A).foldl mergeStep [] := by
      simp [mergePasses, mergePosts]
    rw [h1, List.foldl_append, foldl_mergeStep_disjoint A [] hnd (by simp)]
    exact foldl_mergeStep_absorb A ([] ++ A) (by simpa using hnd) (by simp)
  · intro p q h
    have hbeq : (p.id == q.id) = true := beq_iff_eq.mpr h
    simp [mergePosts, mergeStep, updateById, hbeq]
  · intro p q h
    have hbeq : (p.id == q.id) = false := beq_eq_false_iff_ne.mpr h
    simp [mergePosts, mergeStep, updateById, hbeq]

/-- C7 witness: the amended idempotence conjuncts at a concrete
duplicate-free pass, and the pairwise union at two posts sharing an id. -/
theorem c7_merge_witness :
    mergePasses [[c7dupPost]] = [c7dupPost] ∧
    mergePasses [[c7dupPost], [c7dupPost]] = [c7dupPost] ∧
    mergePosts [c7dupPost, c7dupPost] =
      [{ c7dupPost with comments := mergeCommentsInto c7dupPost.comments c7dupPost.comments }] :=
  ⟨c7_merge_amended.2.1 [c7dupPost] (by simp),
   c7_merge_amended.2.2.1 [c7dupPost] (by simp),
   c7_merge_amended.2.2.2.1 c7dupPost c7dupPost rfl⟩

/-! ### Record dictionary lemmas -/

theorem recFind?_cons (a : String × RecordEntry) (as : Records) (k : String) :
    recFind? (a :: as) k = if a.1 == k then some a.2 else recFind? as k := by
  by_cases h : (a.1 == k) = true <;> simp [recFind?, List.find?, h]

theorem recFind?_map_update (k' k : String) (v : RecordEntry) (h : k' ≠ k) :
    ∀ records : Records,
      recFind? (records.map fun p => if p.1 == k then (k, v) else p) k' =
        recFind? records k' := by
  intro records
  induction records with
  | nil => rfl
  | cons a as ih =>
    by_cases ha : (a.1 == k) = true
    · have hak : a.1 = k := beq_iff_eq.mp ha
      have h1 : (k == k') = false := beq_eq_false_iff_ne.mpr (Ne.symm h)
      have h2 : (a.1 == k') = false := by rw [hak]; exact h1
      simp only [List.map_cons, if_pos ha, recFind?_cons, h1, h2, if_neg, Bool.false_eq_true,
        ite_false]
      exact ih
    · simp only [List.map_cons, if_neg ha, recFind?_cons, ih]

theorem recFind?_append_single (k' k : String) (v : RecordEntry) (h : k' ≠ k) :
    ∀ records : Records, recFind? (records ++ [(k, v)]) k' = recFind? records k' := by
  intro records
  induction records with
  | nil => simp [recFind?_cons, beq_eq_false_iff_ne.mpr (Ne.symm h), recFind?]
  | cons a as ih => simp [recFind?_cons, ih]

/-- Inserting one id leaves the lookups of every other id unchanged. -/
theorem recFind?_recInsert_of_ne (records : Records) (k : String) (v : RecordEntry)
    (k' : String) (h : k' ≠ k) :
    recFind? (recInsert records k v) k' = recFind? records k' := by
  unfold recInsert
  split
  · exact recFind?_map_update k' k v h records
  · exact recFind?_append_single k' k v h records

theorem extractCommentData_withReplies_nil (c : Comment) (depth : Nat) (nowIso : String) :
    (extractCommentData c depth nowIso).withReplies [] = extractCommentData c depth nowIso := rfl

/-! ### C2 -/

/-- C2: in incremental mode, a comment whose id is already recorded
with a fingerprint equal to the fingerprint of the re-fetched comment
is marked unchanged: the crawler returns no subtree for it, does not
visit or fetch any of its children (which may even be failing — the
result is the same), and returns the record dictionary exactly as it
was. -/
theorem c2_incremental_skip (cfg : CrawlerConfig) (nowIso : String) (c : Comment)
    (records : Records) (depth : Nat) (check_relevance : Bool) (entry : RecordEntry)
    (hra : c.info.raises = none)
    (hfind : recFind? records c.info.id = some entry)
    (hhash : entry.hash = getContentHash (commentDataDict (extractCommentData c depth nowIso))) :
    fetchCommentTree cfg nowIso true c records depth check_relevance = (.ok none, records) := by
  obtain ⟨info, replies⟩ := c
  simp only [Comment.info] at hra hfind hhash
  rw [fetchCommentTree]
  simp only [hra, hfind, hhash, Bool.true_and, decide_eq_true_eq]
  split_ifs <;> simp_all

/-- C2 witness: the recorded fingerprint matches and the crawler
returns `(none, records)` unchanged. -/
theorem c2_incremental_skip_witness :
    recFind? c2records (Comment.info c2comment).id =
      some ⟨getContentHash (commentDataDict (extractCommentData c2comment 0 "T")), some 0, "T"⟩ ∧
    fetchCommentTree {} "T" true c2comment c2records 0 true = (.ok none, c2records) :=
  ⟨rfl, c2_incremental_skip {} "T" c2comment c2records 0 true _ rfl rfl rfl⟩

/-! ### C3 -/

/-- C3 counterexample: with `preserveContext` configured off, a nested
(depth 1) comment whose body matches no keyword and which is not an
author reply is nevertheless kept, because the recursive call is made
with `check_relevance = False` unconditionally — refuting "kept if and
only if its body contains a keyword".  Concretely: the relevant
top-level comment is kept together with its irrelevant child. -/
theorem c3_nested_keyword_counterexample :
    c3cfg.preserveContext = false ∧
    isRelevant c3cfg (Comment.info c3child).body = false ∧
    (fetchCommentTree c3cfg "T" false c3parent [] 0 true).1 =
      .ok (some ((extractCommentData c3parent 0 "T").withReplies
        [extractCommentData c3child 1 "T"])) := by
  refine ⟨rfl, by decide, rfl⟩

/-- C3 amended: nested comments reached through the crawler's own
recursion are never keyword-tested, whatever `preserveContext` says,
because every recursive call passes `check_relevance = false`: with
`preserveContext = false`, a nested non-author comment with no keyword
match is still kept (whenever depth, score and record admit it).  The
`preserveContext = false` keyword branch fires only on a direct call
with `check_relevance = true`, which skips that comment and leaves the
records untouched. -/
theorem c3_nested_keyword_amended (cfg : CrawlerConfig) (nowIso : String) (c : Comment)
    (records : Records) (depth : Nat) (incremental : Bool)
    (hpc : cfg.preserveContext = false)
    (hra : c.info.raises = none)
    (hleaf : c.replies = [])
    (hdepth0 : 0 < depth) (hdepth : depth ≤ cfg.maxCommentDepth)
    (hscore : ¬ c.info.score < cfg.minCommentScore - 3)
    (hrec : recFind? records c.info.id = none)
    (hauth : (cfg.alwaysIncludeAuthor && c.info.isSubmitter) = false)
    (hkw : isRelevant cfg c.info.body = false) :
    (fetchCommentTree cfg nowIso incremental c records depth false).1 =
      .ok (some (extractCommentData c depth nowIso)) ∧
    fetchCommentTree cfg nowIso incremental c records depth true = (.ok none, records) := by
  obtain ⟨info, replies⟩ := c
  simp only [Comment.info] at hra hscore hrec hauth hkw
  simp only [Comment.replies] at hleaf
  subst hleaf
  have h1 : ¬ depth > cfg.maxCommentDepth := by omega
  have hd0 : (depth == 0) = false := by simp only [beq_eq_false_iff_ne]; omega
  have hdne : depth ≠ 0 := by omega
  have h2 : ¬ info.score < (if depth = 0 then cfg.minCommentScore
      else cfg.minCommentScore - 3) := by
    simpa [hdne] using hscore
  have h3 : relevanceSkip cfg depth false (cfg.alwaysIncludeAuthor && info.isSubmitter)
      info.body = false := by simp [relevanceSkip]
  have h3t : relevanceSkip cfg depth true (cfg.alwaysIncludeAuthor && info.isSubmitter)
      info.body = true := by
    simp [relevanceSkip, hauth, hd0, hpc, hkw]
  constructor
  · rw [fetchCommentTree]
    by_cases h4 : depth < cfg.maxCommentDepth
    · simp [hra, h1, h2, h3, hrec, h4, processReplies, extractCommentData_withReplies_nil]
    · simp [hra, h1, h2, h3, hrec, h4]
  · rw [fetchCommentTree]
    simp [hra, h1, h2, h3t]

/-- C3 witness for the amended statement: the concrete
`preserveContext = false` configuration with the concrete irrelevant
nested child. -/
theorem c3_nested_keyword_witness :
    (fetchCommentTree c3cfg "T" false c3child [] 1 false).1 =
      .ok (some (extractCommentData c3child 1 "T")) ∧
    fetchCommentTree c3cfg "T" false c3child [] 1 true = (.ok none, []) := by
  have h := c3_nested_keyword_amended c3cfg "T" c3child [] 1 false rfl rfl rfl
    (by decide) (by decide) (by decide) rfl (by decide) (by decide)
  exact h

/-! ### C4 -/

/-- C4: (a) the relevance gate never skips an author reply, at any
depth, for any keyword list; (a') an author reply (with
`ALWAYS_INCLUDE_AUTHOR` on) is kept by the tree crawler whatever its
body text, whenever the depth bound, the score bound and the crawl
record admit the comment at all; (b) a depth-0 comment that is not an
author reply and matches no keyword is skipped together with its
entire subtree — nothing below it is visited and the records are
returned untouched; (c) with `preserveContext = true`, a depth-2
comment with no keyword match is kept exactly when its depth-1 parent
is kept: if the parent is kept the child appears among its kept
replies, and if the parent is skipped the records come back unchanged,
so the child was never visited. -/
theorem c4_relevance_exceptions :
    (∀ (cfg : CrawlerConfig) (depth : Nat) (check_relevance : Bool) (body : String),
      relevanceSkip cfg depth check_relevance true body = false) ∧
    (∀ (cfg : CrawlerConfig) (nowIso : String) (incremental check_relevance : Bool)
        (c : Comment) (records : Records) (depth : Nat),
      cfg.alwaysIncludeAuthor = true → c.info.isSubmitter = true →
      c.info.raises = none → c.replies = [] →
      depth ≤ cfg.maxCommentDepth →
      ¬ c.info.score < (if depth = 0 then cfg.minCommentScore else cfg.minCommentScore - 3) →
      recFind? records c.info.id = none →
      (fetchCommentTree cfg nowIso incremental c records depth check_relevance).1 =
        .ok (some (extractCommentData c depth nowIso))) ∧
    (∀ (cfg : CrawlerConfig) (nowIso : String) (incremental : Bool) (c : Comment)
        (records : Records),
      (cfg.alwaysIncludeAuthor && c.info.isSubmitter) = false →
      c.info.raises = none →
      isRelevant cfg c.info.body = false →
      fetchCommentTree cfg nowIso incremental c records 0 true = (.ok none, records)) ∧
    (∀ (cfg : CrawlerConfig) (nowIso : String) (incremental : Bool)
        (parent child : Comment) (records : Records),
      cfg.preserveContext = true →
      parent.replies = [child] →
      child.info.raises = none → child.replies = [] →
      isRelevant cfg child.info.body = false →
      2 ≤ cfg.maxCommentDepth → 1 ≤ cfg.maxRepliesPerComment →
      ¬ child.info.score < cfg.minCommentScore - 3 →
      child.info.id ≠ parent.info.id →
      recFind? records child.info.id = none →
      (∀ d records2,
        fetchCommentTree cfg nowIso incremental parent records 1 false =
          (.ok (some d), records2) →
        d.replies = [extractCommentData child 2 nowIso]) ∧
      (∀ records2,
        fetchCommentTree cfg nowIso incremental parent records 1 false =
          (.ok none, records2) →
        records2 = records)) := by
  refine ⟨?_, ?_, ?_, ?_⟩
  · intro cfg depth check_relevance body
    simp [relevanceSkip]
  · intro cfg nowIso incremental check_relevance c records depth hai hsub hra hleaf hmax hscore hrec
    obtain ⟨info, replies⟩ := c
    simp only [Comment.info] at hai hsub hra hscore hrec
    simp only [Comment.replies] at hleaf
    subst hleaf
    have h1 : ¬ depth > cfg.maxCommentDepth := by omega
    have h3 : relevanceSkip cfg depth check_relevance
        (cfg.alwaysIncludeAuthor && info.isSubmitter) info.body = false := by
      simp [relevanceSkip, hai, hsub]
    rw [fetchCommentTree]
    by_cases h4 : depth < cfg.maxCommentDepth
    · simp [hra, h1, hscore, h3, hrec, h4, processReplies, extractCommentData_withReplies_nil]
    · simp [hra, h1, hscore, h3, hrec, h4]
  · intro cfg nowIso incremental c records hauth hra hkw
    obtain ⟨info, replies⟩ := c
    simp only [Comment.info] at hauth hra hkw
    rw [fetchCommentTree]
    simp [hra, relevanceSkip, hauth, hkw]
  · intro cfg nowIso incremental parent child records hpc hpr hcra hcleaf hckw hmax hlim
      hcscore hid hrec
    obtain ⟨pinfo, preplies⟩ := parent
    obtain ⟨cinfo, creplies⟩ := child
    simp only [Comment.info] at hcra hckw hcscore hid hrec
    simp only [Comment.replies] at hpr hcleaf
    subst hpr
    subst hcleaf
    have hchild : ∀ records1 : Records, recFind? records1 cinfo.id = none →
        fetchCommentTree cfg nowIso incremental (.mk cinfo []) records1 2 false =
          (.ok (some (extractCommentData (.mk cinfo []) 2 nowIso)),
           recInsert records1 cinfo.id
             ⟨getContentHash (commentDataDict (extractCommentData (.mk cinfo []) 2 nowIso)),
              some 2, nowIso⟩) := by
      intro records1 h
      have h2m : ¬ (2:Nat) > cfg.maxCommentDepth := by omega
      rw [fetchCommentTree]
      by_cases h4 : (2:Nat) < cfg.maxCommentDepth
      · simp [h2m, hcra, hcscore, relevanceSkip, h, h4, processReplies,
          extractCommentData_withReplies_nil]
      · simp [h2m, hcra, hcscore, relevanceSkip, h, h4]
    have hp1 : ¬ (1:Nat) > cfg.maxCommentDepth := by omega
    have hd1 : (1:Nat) < cfg.maxCommentDepth := by omega
    have hmain :
        (∃ records2,
          fetchCommentTree cfg nowIso incremental (.mk pinfo [.mk cinfo []]) records 1 false =
            (.ok (some ((extractCommentData (.mk pinfo [.mk cinfo []]) 1 nowIso).withReplies
              [extractCommentData (.mk cinfo []) 2 nowIso])), records2)) ∨
        fetchCommentTree cfg nowIso incremental (.mk pinfo [.mk cinfo []]) records 1 false =
          (.ok none, records) ∨
        (∃ e, fetchCommentTree cfg nowIso incremental (.mk pinfo [.mk cinfo []]) records 1 false =
          (.error e, records)) := by
      rw [fetchCommentTree]
      rw [if_neg hp1]
      cases hpra : pinfo.raises with
      | some e => exact .inr (.inr ⟨e, rfl⟩)
      | none =>
        by_cases hps : pinfo.score < cfg.minCommentScore - 3
        · exact .inr (.inl (by simp [hps]))
        · by_cases hpu : (incremental &&
              (match recFind? records pinfo.id with
               | some entry => decide (entry.hash = getContentHash (commentDataDict
                   (extractCommentData (Comment.mk pinfo [Comment.mk cinfo []]) 1 nowIso)))
               | none => false)) = true
          · exact .inr (.inl (by simp [hps, hpu]))
          · refine .inl ⟨recInsert (recInsert records pinfo.id
                ⟨getContentHash (commentDataDict
                  (extractCommentData (Comment.mk pinfo [Comment.mk cinfo []]) 1 nowIso)),
                 some 1, nowIso⟩) cinfo.id
                ⟨getContentHash (commentDataDict (extractCommentData (Comment.mk cinfo []) 2 nowIso)),
                 some 2, nowIso⟩, ?_⟩
            obtain ⟨k, hk⟩ : ∃ k, cfg.maxRepliesPerComment = k + 1 :=
              ⟨cfg.maxRepliesPerComment - 1, by omega⟩
            have hrec1 : recFind? (recInsert records pinfo.id
                ⟨getContentHash (commentDataDict
                  (extractCommentData (Comment.mk pinfo [Comment.mk cinfo []]) 1 nowIso)),
                 some 1, nowIso⟩) cinfo.id = none := by
              rw [recFind?_recInsert_of_ne _ _ _ _ hid]
              exact hrec
            simp [hps, hpu, hd1, hk, processReplies, relevanceSkip, hchild _ hrec1]
    refine ⟨?_, ?_⟩
    · intro d records2 hEq
      rcases hmain with ⟨r2, hres⟩ | hres | ⟨e, hres⟩
      · rw [hres] at hEq
        simp only [Prod.mk.injEq, Except.ok.injEq, Option.some.injEq] at hEq
        rw [← hEq.1]
        rfl
      · rw [hres] at hEq
        simp at hEq
      · rw [hres] at hEq
        simp at hEq
    · intro records2 hEq
      rcases hmain with ⟨r2, hres⟩ | hres | ⟨e, hres⟩
      · rw [hres] at hEq
        simp at hEq
      · rw [hres] at hEq
        simp only [Prod.mk.injEq, Except.ok.injEq] at hEq
        exact hEq.2.symm
      · rw [hres] at hEq
        simp at hEq

/-- C4 witness: concrete instances of all four conjuncts against the
default configuration. -/
theorem c4_relevance_exceptions_witness :
    relevanceSkip {} 3 true true "no keyword at all" = false ∧
    (fetchCommentTree {} "T" true c4author [] 3 true).1 =
      .ok (some (extractCommentData c4author 3 "T")) ∧
    fetchCommentTree {} "T" true c4irrelevant [] 0 true = (.ok none, []) ∧
    ((extractCommentData c4parent 1 "T").withReplies
        [extractCommentData c4child 2 "T"]).replies = [extractCommentData c4child 2 "T"] := by
  refine ⟨c4_relevance_exceptions.1 {} 3 true _,
    c4_relevance_exceptions.2.1 {} "T" true true c4author [] 3 rfl rfl rfl rfl
      (by decide) (by decide) rfl,
    c4_relevance_exceptions.2.2.1 {} "T" true c4irrelevant [] rfl rfl (by decide),
    (c4_relevance_exceptions.2.2.2 {} "T" true c4parent c4child [] rfl rfl rfl rfl
      (by decide) (by decide) (by decide) (by decide) (by decide) rfl).1 _ _ rfl⟩

/-! ### Frame lemmas for the listing crawl loop -/

/-- The per-submission loop body never touches the persisted record
snapshots and only ever appends to the collected posts. -/
theorem processSubmission_frame (cfg : CrawlerConfig) (nowIso : String) (minScore : Int)
    (timeThreshold : Nat) (incremental : Bool) (s : Submission) (st1 : CrawlSt) :
    (processSubmission cfg nowIso minScore timeThreshold incremental s st1).state.savedRecords
      = st1.savedRecords ∧
    ∃ tl, (processSubmission cfg nowIso minScore timeThreshold incremental s st1).state.collected
      = st1.collected ++ tl := by
  simp only [processSubmission]
  repeat' split
  all_goals first
    | exact ⟨rfl, _, rfl⟩
    | exact ⟨rfl, [], by simp [SubStep.state]⟩

/-- The submission loop never touches the persisted record snapshots
and only ever appends to the collected posts. -/
theorem processSubmissions_frame (cfg : CrawlerConfig) (nowIso : String) (minScore : Int)
    (timeThreshold : Nat) (incremental : Bool) :
    ∀ (subs : List Submission) (post_count : Nat) (st : CrawlSt),
      ((processSubmissions cfg nowIso minScore timeThreshold incremental subs post_count st).1).savedRecords
        = st.savedRecords ∧
      ∃ tl, ((processSubmissions cfg nowIso minScore timeThreshold incremental subs post_count st).1).collected
        = st.collected ++ tl := by
  intro subs
  induction subs with
  | nil => exact fun post_count st => ⟨rfl, [], (List.append_nil _).symm⟩
  | cons s rest ih =>
    intro post_count st
    have hkey : ∀ st1 : CrawlSt, st1.savedRecords = st.savedRecords →
        st1.collected = st.collected →
        ((match processSubmission cfg nowIso minScore timeThreshold incremental s st1 with
          | .proceed st2 =>
            processSubmissions cfg nowIso minScore timeThreshold incremental rest (post_count + 1) st2
          | .stop st2 => (st2, none)
          | .failed st2 e => (st2, some e)).1.savedRecords = st.savedRecords ∧
         ∃ tl, (match processSubmission cfg nowIso minScore timeThreshold incremental s st1 with
          | .proceed st2 =>
            processSubmissions cfg nowIso minScore timeThreshold incremental rest (post_count + 1) st2
          | .stop st2 => (st2, none)
          | .failed st2 e => (st2, some e)).1.collected = st.collected ++ tl) := by
      intro st1 hsv hcl
      obtain ⟨hfs, tl1, hft⟩ :=
        processSubmission_frame cfg nowIso minScore timeThreshold incremental s st1
      cases hps : processSubmission cfg nowIso minScore timeThreshold incremental s st1 with
      | proceed st2 =>
        rw [hps] at hfs hft
        simp only [SubStep.state] at hfs hft
        obtain ⟨ihs, tl2, iht⟩ := ih (post_count + 1) st2
        refine ⟨by rw [ihs, hfs, hsv], tl1 ++ tl2, ?_⟩
        rw [iht, hft, hcl, List.append_assoc]
      | stop st2 =>
        rw [hps] at hfs hft
        simp only [SubStep.state] at hfs hft
        exact ⟨by rw [hfs, hsv], tl1, by rw [hft, hcl]⟩
      | failed st2 e =>
        rw [hps] at hfs hft
        simp only [SubStep.state] at hfs hft
        exact ⟨by rw [hfs, hsv], tl1, by rw [hft, hcl]⟩
    rw [processSubmissions]
    by_cases hchk : (decide (post_count > 0) && post_count % RATE_CHECK_INTERVAL == 0) = true
    · rw [if_pos hchk]
      rcases hcr : checkRateLimit st.rl st.now with ⟨ok, rl1, now1⟩
      cases ok
      · exact ⟨rfl, [], (List.append_nil _).symm⟩
      · exact hkey { st with rl := rl1, now := now1 } rfl rfl
    · rw [if_neg hchk]
      exact hkey st rfl rfl

/-- The listing-type loop never touches the persisted record snapshots
and only ever appends to the collected posts. -/
theorem crawlListings_frame (cfg : CrawlerConfig) (nowIso : String) (minScore : Int)
    (timeThreshold : Nat) (incremental : Bool) (jitter : Nat) :
    ∀ (listings : List (List Submission)) (st : CrawlSt),
      (crawlListings cfg nowIso minScore timeThreshold incremental jitter listings st).savedRecords
        = st.savedRecords ∧
      ∃ tl, (crawlListings cfg nowIso minScore timeThreshold incremental jitter listings st).collected
        = st.collected ++ tl := by
  intro listings
  induction listings with
  | nil => exact fun st => ⟨rfl, [], (List.append_nil _).symm⟩
  | cons listing restListings ih =>
    intro st
    rw [crawlListings]
    rcases hcr : checkRateLimit st.rl st.now with ⟨ok, rl1, now1⟩
    cases ok
    · exact ⟨rfl, [], (List.append_nil _).symm⟩
    · simp only [Bool.not_true, Bool.false_eq_true, if_false]
      obtain ⟨hfs, tl1, hft⟩ := processSubmissions_frame cfg nowIso minScore timeThreshold
        incremental listing 0 { st with rl := rl1, now := now1 }
      rcases hps : processSubmissions cfg nowIso minScore timeThreshold incremental listing 0
          { st with rl := rl1, now := now1 } with ⟨st2, err⟩
      rw [hps] at hfs hft
      simp only at hfs hft
      cases err with
      | none =>
        obtain ⟨ihs, tl2, iht⟩ := ih st2
        refine ⟨by rw [ihs, hfs], tl1 ++ tl2, ?_⟩
        rw [iht, hft, List.append_assoc]
      | some e =>
        cases e
        · rcases hhr : handleRateLimitError st2.rl st2.now jitter with ⟨rl2, now2, w⟩
          exact ⟨by simpa using hfs, tl1, by simpa using hft⟩
        · exact ⟨by simpa using hfs, tl1, by simpa using hft⟩
        · obtain ⟨ihs, tl2, iht⟩ := ih st2
          refine ⟨by rw [ihs, hfs], tl1 ++ tl2, ?_⟩
          rw [iht, hft, List.append_assoc]
        · obtain ⟨ihs, tl2, iht⟩ := ih st2
          refine ⟨by rw [ihs, hfs], tl1 ++ tl2, ?_⟩
          rw [iht, hft, List.append_assoc]

/-! ### C9 -/

/-- C9 counterexample: one listing with two relevant posts.  Both
posts are processed and collected, yet the record file is persisted
exactly once (at the end of the pass) — not after every root item, so
a mid-pass failure would lose both posts' record updates, not at most
one post's worth. -/
theorem c9_record_save_counterexample :
    (crawlSubreddit c9cfg "T" 10 0 true 0 [[c9s1, c9s2]] (freshCrawlSt 0)).collected.length = 2 ∧
    (crawlSubreddit c9cfg "T" 10 0 true 0 [[c9s1, c9s2]] (freshCrawlSt 0)).savedRecords.length = 1 :=
  ⟨rfl, rfl⟩

/-- C9 amended: `crawl_subreddit` persists the crawl record exactly
once per discovery pass, at the end of the pass (`_save_record` after
the listing loop): the snapshot list grows by exactly one element,
whose contents are the final post records, comment records and
last-crawl stamp of the pass — so the end-of-pass save does persist
every update made during the pass, but a failure before that point
loses the whole pass's record updates (up to one pass, not up to one
root item). -/
theorem c9_record_save_amended (cfg : CrawlerConfig) (nowIso : String) (minScore : Int)
    (timeThreshold : Nat) (incremental : Bool) (jitter : Nat)
    (listings : List (List Submission)) (st0 : CrawlSt) :
    (crawlSubreddit cfg nowIso minScore timeThreshold incremental jitter listings st0).savedRecords
      = st0.savedRecords ++
        [((crawlSubreddit cfg nowIso minScore timeThreshold incremental jitter listings st0).postRecords,
          (crawlSubreddit cfg nowIso minScore timeThreshold incremental jitter listings st0).commentRecords,
          (crawlSubreddit cfg nowIso minScore timeThreshold incremental jitter listings st0).lastCrawl)] := by
  have hframe := (crawlListings_frame cfg nowIso minScore timeThreshold incremental jitter
    listings st0).1
  simp [crawlSubreddit, hframe]

/-! ### C8 -/

/-- C8 counterexample: a transient provider error while fetching one
comment of a post is not caught at that comment: it aborts the whole
listing type — the enclosing post is dropped (nothing is collected)
even though its other top-level comment is healthy and relevant, as
the error-free run of the same listing shows (the post is collected
with two comment trees). -/
theorem c8_transient_error_counterexample :
    (crawlSubreddit c8cfg "T" 10 0 true 0 [[c8errSub]] (freshCrawlSt 0)).collected = [] ∧
    ((crawlSubreddit c8cfg "T" 10 0 true 0 [[c8okSub]] (freshCrawlSt 0)).collected.map
      (fun p => p.comments.length)) = [2] :=
  ⟨rfl, rfl⟩

/-- C8 amended: a transient (non-throttling, non-access) provider
error escaping the submission loop is caught at the listing-type
level: the crawl abandons the rest of the current listing (including
the in-progress post) and continues with the remaining listing types
from the state accumulated so far; posts collected before the error
are never lost, since the submission loop only ever appends to the
collected list. -/
theorem c8_transient_error_amended (cfg : CrawlerConfig) (nowIso : String) (minScore : Int)
    (timeThreshold : Nat) (incremental : Bool) (jitter : Nat) :
    (∀ (listing : List Submission) (restListings : List (List Submission))
        (st st2 : CrawlSt) (rl1 : RLState) (now1 : Nat),
      checkRateLimit st.rl st.now = (true, rl1, now1) →
      processSubmissions cfg nowIso minScore timeThreshold incremental listing 0
        { st with rl := rl1, now := now1 } = (st2, some .transient) →
      crawlListings cfg nowIso minScore timeThreshold incremental jitter
        (listing :: restListings) st =
      crawlListings cfg nowIso minScore timeThreshold incremental jitter restListings st2) ∧
    (∀ (subs : List Submission) (post_count : Nat) (st : CrawlSt),
      ∃ tl, ((processSubmissions cfg nowIso minScore timeThreshold incremental
        subs post_count st).1).collected = st.collected ++ tl) := by
  constructor
  · intro listing restListings st st2 rl1 now1 hcr hps
    rw [crawlListings, hcr]
    simp only [Bool.not_true, Bool.false_eq_true, if_false]
    rw [hps]
  · intro subs post_count st
    exact (processSubmissions_frame cfg nowIso minScore timeThreshold incremental
      subs post_count st).2

/-- C8 witness: the concrete failing listing is abandoned and the
crawl proceeds to the remaining listing types with the state the
submission loop had reached. -/
theorem c8_transient_error_witness :
    crawlListings c8cfg "T" 10 0 true 0 [[c8errSub]] (freshCrawlSt 0) =
      crawlListings c8cfg "T" 10 0 true 0 []
        (processSubmissions c8cfg "T" 10 0 true [c8errSub] 0
          { freshCrawlSt 0 with
            rl := (checkRateLimit (freshCrawlSt 0).rl (freshCrawlSt 0).now).2.1
            now := (checkRateLimit (freshCrawlSt 0).rl (freshCrawlSt 0).now).2.2 }).1 ∧
    ∃ tl, ((processSubmissions c8cfg "T" 10 0 true [c8errSub] 0 (freshCrawlSt 0)).1).collected =
      (freshCrawlSt 0).collected ++ tl :=
  ⟨(c8_transient_error_amended c8cfg "T" 10 0 true 0).1 [c8errSub] [] (freshCrawlSt 0)
      _ _ _ rfl rfl,
   (c8_transient_error_amended c8cfg "T" 10 0 true 0).2 [c8errSub] 0 (freshCrawlSt 0)⟩

end RedditCrawler
